import Mathlib

/-!
Shallow embedding of the "Ai-Image-Finder" repository.

The repository contains two generations of the same application:
* `ai_image_finder.py` — the single-file application (scanner with folder
  exclusion and size filters, progress/cancellation aware `index_images`,
  `ImageSearcher.search` with `min(k, count)`, self-match filtering in
  `MainWindow.search_image`, min–max similarity normalization in
  `MainWindow.display_results`);
* `engine/indexer.py`, `engine/searcher.py`, `gui/main_window.py` — the
  modular version (plain recursive collection with no folder exclusion and
  no size filter, `ImageSearcher.search` with a raw `k`, a GUI that does no
  self-match filtering).

External collaborators (the CLIP embedding model and the faiss
`IndexFlatL2`) are not part of the repository; following §4.2/§4.3 of the
specification they are represented by their contracts: the embedding model
is an opaque function argument, and the flat index is modelled from the
spec as an exact squared-L2 k-nearest-neighbour search.  Machine floats are
modelled as rationals; file systems are modelled as explicit states.
-/

/-! ## Vectors and squared-L2 distance -/

abbrev Vec := List ℚ

/-- Squared Euclidean (squared-L2) distance: sum of squared per-dimension
differences. -/
def sqDist (a b : Vec) : ℚ := (List.zipWith (fun x y => (x - y) * (x - y)) a b).sum

/-! ## The flat vector index (external collaborator, modelled from the spec) -/

/-- Ranking order on `(insertion id, distance)` pairs: smaller distance
first, ties broken by smaller insertion id. -/
def pairRel (a b : ℕ × ℚ) : Prop := a.2 < b.2 ∨ (a.2 = b.2 ∧ a.1 ≤ b.1)

instance : DecidableRel pairRel := fun a b => by
  unfold pairRel; infer_instance

instance : IsTotal (ℕ × ℚ) pairRel where
  total a b := by
    rcases lt_trichotomy a.2 b.2 with h | h | h
    · exact Or.inl (Or.inl h)
    · rcases Nat.le_total a.1 b.1 with h2 | h2
      · exact Or.inl (Or.inr ⟨h, h2⟩)
      · exact Or.inr (Or.inr ⟨h.symm, h2⟩)
    · exact Or.inr (Or.inl h)

instance : IsTrans (ℕ × ℚ) pairRel where
  trans a b c hab hbc := by
    rcases hab with h1 | ⟨e1, l1⟩ <;> rcases hbc with h2 | ⟨e2, l2⟩
    · exact Or.inl (h1.trans h2)
    · exact Or.inl (e2 ▸ h1)
    · exact Or.inl (e1 ▸ h2)
    · exact Or.inr ⟨e1.trans e2, l1.trans l2⟩

/-- All `(insertion id, distance to the query)` pairs of a vector store. -/
def distPairs (store : List Vec) (q : Vec) : List (ℕ × ℚ) :=
  store.enum.map (fun p => (p.1, sqDist q p.2))

/-- Modelled from the spec: the external `faiss.IndexFlatL2.search` used by
both searchers (the library itself is not repository code).  Per §4.3 it is
an exact brute-force search returning the `k` entries with smallest squared
Euclidean distance to the query, ascending by distance, ties broken by
smaller insertion id, and all entries when `k` exceeds the stored count. -/
def faissFlatSearch (store : List Vec) (q : Vec) (k : ℕ) : List (ℕ × ℚ) :=
  (List.insertionSort pairRel (distPairs store q)).take k

/-! ## The searchers -/

namespace ImageSearcher

/-- `ImageSearcher.search` from `src/ai_image_finder.py` (lines 244–258):
`k=None` defaults to the full path count, the index is queried with
`min(k, len(image_paths))`, and each returned id is mapped to its path
after an `idx < len(image_paths)` guard.  The query is given as its
embedding vector (the CLIP model is an external collaborator). -/
def search (image_paths : List String) (store : List Vec) (query_embedding : Vec)
    (k : Option ℕ) : List (String × ℚ) :=
  let kv := k.getD image_paths.length
  (faissFlatSearch store query_embedding (min kv image_paths.length)).filterMap
    (fun p => if p.1 < image_paths.length then some (image_paths.getD p.1 "", p.2) else none)

end ImageSearcher

namespace EngineImageSearcher

/-- `ImageSearcher.search` from `src/engine/searcher.py` (lines 20–47): the
index is queried with the raw `k`, then ids are mapped to paths under the
same `idx < len(image_paths)` guard. -/
def search (image_paths : List String) (store : List Vec) (query_embedding : Vec)
    (k : ℕ) : List (String × ℚ) :=
  (faissFlatSearch store query_embedding k).filterMap
    (fun p => if p.1 < image_paths.length then some (image_paths.getD p.1 "", p.2) else none)

end EngineImageSearcher

namespace GuiMainWindow

/-- `MainWindow.search_image` from `src/gui/main_window.py` (lines 65–85):
it calls `searcher.search(image_path, k=10)` and displays every returned
entry; no result is removed. -/
def search_image_results (image_paths : List String) (store : List Vec)
    (query_embedding : Vec) : List (String × ℚ) :=
  EngineImageSearcher.search image_paths store query_embedding 10

end GuiMainWindow

namespace MainWindow

/-- The result filter inside `MainWindow.search_image` from
`src/ai_image_finder.py` (lines 693–701): entries whose
`os.path.abspath` equals the query's `os.path.abspath` are dropped.  The
path-canonicalization function `abspath` is passed as an argument. -/
def filtered_search_results (abspath : String → String) (image_paths : List String)
    (store : List Vec) (query_embedding : Vec) (image_path : String) :
    List (String × ℚ) :=
  (ImageSearcher.search image_paths store query_embedding none).filter
    (fun r => abspath r.1 != abspath image_path)

end MainWindow

/-! ## Similarity display (`MainWindow.display_results`) -/

/-- Python `max` of a nonempty list (0 on the empty list, unused there). -/
def listMax : List ℚ → ℚ
  | [] => 0
  | x :: xs => xs.foldl max x

/-- Python `min` of a nonempty list (0 on the empty list, unused there). -/
def listMin : List ℚ → ℚ
  | [] => 0
  | x :: xs => xs.foldl min x

namespace MainWindow

/-- Per-result similarity from `MainWindow.display_results` in
`src/ai_image_finder.py` (lines 736–750): `100.0` when the distance range
is zero, otherwise `max(0, 100 - ((distance - min_distance) /
distance_range * 100))`. -/
def similarity (min_distance distance_range distance : ℚ) : ℚ :=
  if distance_range = 0 then 100
  else max 0 (100 - ((distance - min_distance) / distance_range * 100))

/-- The list of similarity percentages `display_results` computes for a
result list with the given raw distances (order preserved). -/
def display_similarities (distances : List ℚ) : List ℚ :=
  match distances with
  | [] => []
  | _ :: _ =>
    let max_distance := listMax distances
    let min_distance := listMin distances
    let distance_range := max_distance - min_distance
    distances.map (fun d => similarity min_distance distance_range d)

end MainWindow

/-- The clamp function as written in the specification:
`clamp(v, lo, hi)`. -/
def clamp (v lo hi : ℚ) : ℚ := min hi (max lo v)

/-! ## The persisted snapshot (`ImageIndexer.save` and the inline save) -/

/-- On-disk state: the vector-store artifact (`data/faiss_index.bin`) and
the path-list artifact (`data/image_paths.pkl`), each either absent or
holding its content. -/
structure FS where
  indexFile : Option (List Vec)
  pathsFile : Option (List String)
deriving DecidableEq

/-- `faiss.write_index(self.index, index_path)`: in-place write of the
vector artifact. -/
def write_index (v : List Vec) (fs : FS) : FS := { fs with indexFile := some v }

/-- `pickle.dump(self.image_paths, f)`: in-place write of the path-list
artifact. -/
def write_paths (p : List String) (fs : FS) : FS := { fs with pathsFile := some p }

/-- `ImageIndexer.save` from `src/engine/indexer.py` (lines 57–61), also
inlined in `index_images` (`src/ai_image_finder.py` lines 224–229): writes
the index artifact, then the path-list artifact, directly in place. -/
def save (v : List Vec) (p : List String) (fs : FS) : FS :=
  write_paths p (write_index v fs)

/-- Both artifacts are present, hence a load attempt will read them. -/
def readableFS (fs : FS) : Bool := fs.indexFile.isSome && fs.pathsFile.isSome

/-- A readable snapshot is consistent when the artifact counts agree. -/
def consistentFS (fs : FS) : Bool :=
  match fs.indexFile, fs.pathsFile with
  | some v, some p => v.length == p.length
  | _, _ => true

/-! ## Scanner configuration and filters (`src/ai_image_finder.py`) -/

def SUPPORTED_EXTENSIONS : List String :=
  [".jpg", ".jpeg", ".png", ".gif", ".bmp", ".tiff", ".tif", ".webp"]

def EXCLUDED_FOLDERS : List String :=
  ["System32", "Windows", "Program Files", "AppData", ".git", "__pycache__",
   "temp", "tmp", "cache"]

def MIN_FILE_SIZE_KB : ℕ := 1

def MAX_FILE_SIZE_MB : ℕ := 50

/-- Python `str.lower` on the characters of a string. -/
def lowerChars (s : String) : List Char := s.toList.map Char.toLower

/-- Boolean list-of-characters "starts with" test. -/
def leadsWith : List Char → List Char → Bool
  | [], _ => true
  | _ :: _, [] => false
  | a :: as, b :: bs => a == b && leadsWith as bs

/-- Python's substring containment `tok in hay`. -/
def hasSub (tok : List Char) : List Char → Bool
  | [] => leadsWith tok []
  | c :: rest => leadsWith tok (c :: rest) || hasSub tok rest

/-- `ImageIndexer._should_exclude_folder` (`src/ai_image_finder.py` lines
88–90) applied to a directory's own basename: true when any exclusion
token is a case-insensitive substring of it. -/
def should_exclude_folder (folder_name : String) : Bool :=
  EXCLUDED_FOLDERS.any (fun excluded => hasSub (lowerChars excluded) (lowerChars folder_name))

/-- The extension (including the dot) that `os.path.splitext` reports for a
basename: the part after the last dot, provided some earlier character of
the name is not a dot. -/
def extOfBase (base : List Char) : List Char :=
  let rev := base.reverse
  let afterRev := rev.takeWhile (fun c => !(c == '.'))
  if afterRev.length == rev.length then []
  else
    let beforeLen := base.length - afterRev.length - 1
    if (base.take beforeLen).any (fun c => !(c == '.')) then '.' :: afterRev.reverse
    else []

/-- A directory entry that is a file: its name and its size in bytes, or
`none` when `os.path.getsize` raises `OSError`. -/
structure FileEnt where
  name : String
  size : Option ℕ
deriving DecidableEq

/-- `ImageIndexer._is_valid_image_file` (`src/ai_image_finder.py` lines
92–101): supported extension (case-insensitive) and
`MIN_FILE_SIZE_KB ≤ size/1024 ≤ MAX_FILE_SIZE_MB * 1024`; a stat error
rejects the file. -/
def is_valid_image_file (f : FileEnt) : Bool :=
  ((SUPPORTED_EXTENSIONS.map (fun e => e.toList)).contains (extOfBase (lowerChars f.name))) &&
    match f.size with
    | none => false
    | some bytes =>
      decide ((MIN_FILE_SIZE_KB : ℚ) ≤ (bytes : ℚ) / 1024 ∧
              (bytes : ℚ) / 1024 ≤ (MAX_FILE_SIZE_MB : ℚ) * 1024)

/-- A directory tree: its basename, its files, and its subdirectories. -/
inductive FTree where
  | node (name : String) (files : List FileEnt) (subs : List FTree)

def FTree.name : FTree → String
  | .node n _ _ => n

/-! ## The modular engine's collection loop (`src/engine/indexer.py`) -/

namespace EngineIndexer

def valid_extensions : List String := [".jpg", ".jpeg", ".png", ".gif", ".bmp"]

/-- The file filter of `ImageIndexer.build_index` (`src/engine/indexer.py`
lines 35–38): extension test only — no size filter. -/
def engine_is_valid (filename : String) : Bool :=
  (valid_extensions.map (fun e => e.toList)).contains (extOfBase (lowerChars filename))

mutual

/-- The `os.walk` collection loop of `ImageIndexer.build_index`
(`src/engine/indexer.py` lines 35–38): every directory is visited — there
is no folder-exclusion check. -/
def collect (dirpath : String) : FTree → List String
  | .node _ files subs =>
    (files.filter (fun f => engine_is_valid f.name)).map (fun f => dirpath ++ "/" ++ f.name)
      ++ collectSubs dirpath subs

def collectSubs (dirpath : String) : List FTree → List String
  | [] => []
  | sub :: rest => collect (dirpath ++ "/" ++ sub.name) sub ++ collectSubs dirpath rest

end

end EngineIndexer

/-! ## The single-file app's build run (`ImageIndexer.index_images`) -/

/-- The cooperative `should_stop` flag, set once by `stop_indexing`: its
value at the `t`-th check of the run, where `t0` is the check count from
which the flag reads true (`none` when cancellation is never requested). -/
def flagAt (t0 : Option ℕ) (t : ℕ) : Bool :=
  match t0 with
  | none => false
  | some s => decide (s ≤ t)

/-- Scanning-phase state: the check counter, `total_folders`, the
accumulated `all_images`, and the emitted progress events. -/
structure ScanSt where
  t : ℕ
  folders : ℕ
  images : List String
  prog : List (String × ℕ)
deriving DecidableEq

def scanMsg (folders images : ℕ) : String :=
  "📂 Scanned " ++ toString folders ++ " folders, found " ++ toString images ++ " images..."

/-- The `for filename in filenames` loop: a stop check per file, then the
validity filter and collection. -/
def walkFiles (t0 : Option ℕ) (dirpath : String) :
    List FileEnt → ScanSt → Except ScanSt ScanSt
  | [], st => .ok st
  | f :: rest, st =>
    if flagAt t0 st.t then .error st
    else
      let st1 : ScanSt := { st with t := st.t + 1 }
      let st2 : ScanSt :=
        if is_valid_image_file f then
          { st1 with images := st1.images ++ [dirpath ++ "/" ++ f.name] }
        else st1
      walkFiles t0 dirpath rest st2

mutual

/-- One `os.walk` iteration of `index_images` (`src/ai_image_finder.py`
lines 156–178) on a directory and, recursively, its surviving subtree: stop
check, `total_folders` increment, exclusion pruning (`dirnames.clear()`),
the file loop, the periodic progress event, then the subdirectories.
`Except.error` models the `return` taken when the stop flag is observed. -/
def walkTree (t0 : Option ℕ) (dirpath : String) : FTree → ScanSt → Except ScanSt ScanSt
  | .node nm files subs, st =>
    if flagAt t0 st.t then .error st
    else
      let st1 : ScanSt := { st with t := st.t + 1, folders := st.folders + 1 }
      if should_exclude_folder nm then .ok st1
      else
        match walkFiles t0 dirpath files st1 with
        | .error st' => .error st'
        | .ok st2 =>
          let st3 : ScanSt :=
            if st2.folders % 100 == 0 then
              { st2 with prog := st2.prog ++
                  [(scanMsg st2.folders st2.images.length, min 40 (15 + st2.folders / 100))] }
            else st2
          walkSubs t0 dirpath subs st3

def walkSubs (t0 : Option ℕ) (dirpath : String) : List FTree → ScanSt → Except ScanSt ScanSt
  | [], st => .ok st
  | sub :: rest, st =>
    match walkTree t0 (dirpath ++ "/" ++ sub.name) sub st with
    | .error st' => .error st'
    | .ok st' => walkSubs t0 dirpath rest st'

end

/-- The `for location in scan_locations` loop (`src/ai_image_finder.py`
lines 149–178): a stop check per location, then the walk of that root. -/
def scanLocations (t0 : Option ℕ) : List FTree → ScanSt → Except ScanSt ScanSt
  | [], st => .ok st
  | tr :: rest, st =>
    if flagAt t0 st.t then .error st
    else
      match walkTree t0 tr.name tr { st with t := st.t + 1 } with
      | .error st' => .error st'
      | .ok st' => scanLocations t0 rest st'

/-- `list(dict.fromkeys(all_images))`: deduplication preserving the order
of first encounter. -/
def dedupGo (seen : List String) : List String → List String
  | [] => []
  | x :: xs => if seen.contains x then dedupGo seen xs else x :: dedupGo (x :: seen) xs

def dedupKeepFirst (l : List String) : List String := dedupGo [] l

/-- Embedding-phase state: check counter, `embeddings_list`, `image_paths`,
`processed_count`, `failed_images`, and the progress events. -/
structure EmbSt where
  t : ℕ
  embeddings_list : List Vec
  image_paths : List String
  processed_count : ℕ
  failed_images : List (String × String)
  prog : List (String × ℕ)
deriving DecidableEq

def embedMsg (processed n : ℕ) : String :=
  "📊 Processed " ++ toString processed ++ "/" ++ toString n ++ " images..."

/-- The `for i, img_path in enumerate(unique_images)` loop
(`src/ai_image_finder.py` lines 193–214): a stop check before each image,
the per-image try/except (a failure is recorded in `failed_images` and does
not abort), and the progress event every 10 images and at the last one. -/
def embedLoop (t0 : Option ℕ) (embed : String → Except String Vec) (n : ℕ) :
    List (ℕ × String) → EmbSt → Except EmbSt EmbSt
  | [], st => .ok st
  | (i, img) :: rest, st =>
    if flagAt t0 st.t then .error st
    else
      let st1 : EmbSt := { st with t := st.t + 1 }
      let st2 : EmbSt :=
        match embed img with
        | .ok v =>
          { st1 with embeddings_list := st1.embeddings_list ++ [v],
                     image_paths := st1.image_paths ++ [img],
                     processed_count := st1.processed_count + 1 }
        | .error e => { st1 with failed_images := st1.failed_images ++ [(img, e)] }
      let st3 : EmbSt :=
        if i % 10 == 0 || i == n - 1 then
          { st2 with prog := st2.prog ++ [(embedMsg st2.processed_count n, 45 + i * 40 / n)] }
        else st2
      embedLoop t0 embed n rest st3

/-- Observable outcome of one `index_images` run: the `finished_signal`
emissions (each followed by `return` in the source, so at most one), the
`progress_signal` emissions in order, the final `failed_images` list, the
resulting on-disk state, and whether the run ended by a `return` taken at a
stop-flag check (in which case nothing is emitted on `finished_signal`). -/
structure RunOut where
  finished : List (Bool × String × ℕ)
  prog : List (String × ℕ)
  failed_images : List (String × String)
  fs : FS
  cancelledRet : Bool
deriving DecidableEq

/-- The progress events emitted before the location loop starts
(`src/ai_image_finder.py` lines 131, 139, 148). -/
def initProg (scan_whole_machine : Bool) : List (String × ℕ) :=
  [("🤖 Loading AI model...", 5)] ++
    (if scan_whole_machine then [("🔍 Scanning all drives and connected devices...", 10)]
     else []) ++ [("📂 Finding images...", 15)]

/-- The scanning-phase state at the start of the location loop. -/
def initScanSt (scan_whole_machine : Bool) : ScanSt :=
  { t := 0, folders := 0, images := [], prog := initProg scan_whole_machine }

/-- The tail of `index_images` after the embedding loop
(`src/ai_image_finder.py` lines 216–231): fail with no write when nothing
was embedded, otherwise emit the build/save progress events, save the
snapshot and emit the success signal. -/
def afterEmbed (est : EmbSt) (fs0 : FS) : RunOut :=
  if est.embeddings_list.isEmpty then
    { finished := [(false, "No images could be processed!", 0)], prog := est.prog,
      failed_images := est.failed_images, fs := fs0, cancelledRet := false }
  else
    { finished := [(true, "✅ Successfully indexed " ++
        toString est.processed_count ++ " images!", est.processed_count)],
      prog := est.prog ++ [("💾 Building search index...", 90),
                           ("💾 Saving index files...", 95)],
      failed_images := est.failed_images,
      fs := save est.embeddings_list est.image_paths fs0,
      cancelledRet := false }

/-- The part of `index_images` after a completed scan
(`src/ai_image_finder.py` lines 180–231): fail when no image was found,
otherwise deduplicate, emit the 45% event, and run the embedding loop. -/
def afterScan (embed : String → Except String Vec) (t0 : Option ℕ) (st : ScanSt)
    (fs0 : FS) : RunOut :=
  if st.images.isEmpty then
    { finished := [(false, "No images found to index!", 0)], prog := st.prog,
      failed_images := [], fs := fs0, cancelledRet := false }
  else
    let unique_images := dedupKeepFirst st.images
    let n := unique_images.length
    match embedLoop t0 embed n unique_images.enum
        { t := st.t, embeddings_list := [], image_paths := [], processed_count := 0,
          failed_images := [],
          prog := st.prog ++ [("🚀 Processing " ++ toString n ++ " unique images...", 45)] } with
    | .error est =>
      { finished := [], prog := est.prog, failed_images := est.failed_images,
        fs := fs0, cancelledRet := true }
    | .ok est => afterEmbed est fs0

/-- `ImageIndexer.index_images` (`src/ai_image_finder.py` lines 128–234).
`load_model` models the `SentenceTransformer` construction (its failure is
caught by the enclosing try/except and converted into a failure signal);
`embed` models decoding plus encoding of one image, with every raised error
caught by the per-image try/except; `t0` is the cancellation schedule;
`scan_locations` the roots (each assumed to exist); `fs0` the prior disk
state. -/
def index_images (load_model : Except String Unit) (embed : String → Except String Vec)
    (t0 : Option ℕ) (scan_whole_machine : Bool) (scan_locations : List FTree)
    (fs0 : FS) : RunOut :=
  match load_model with
  | .error e =>
    { finished := [(false, "❌ Indexing failed: " ++ e, 0)],
      prog := [("🤖 Loading AI model...", 5)],
      failed_images := [], fs := fs0, cancelledRet := false }
  | .ok _ =>
    match scanLocations t0 scan_locations (initScanSt scan_whole_machine) with
    | .error st =>
      { finished := [], prog := st.prog, failed_images := [], fs := fs0, cancelledRet := true }
    | .ok st => afterScan embed t0 st fs0

/-! ## Characterization helpers used in theorem statements -/

mutual

/-- The candidate files a completed scan of a tree contributes: the valid
files of every directory not beneath (or at) an excluded directory. -/
def allowedFiles (dirpath : String) : FTree → List String
  | .node nm files subs =>
    if should_exclude_folder nm then []
    else (files.filter is_valid_image_file).map (fun f => dirpath ++ "/" ++ f.name)
      ++ allowedFilesSubs dirpath subs

def allowedFilesSubs (dirpath : String) : List FTree → List String
  | [] => []
  | sub :: rest => allowedFiles (dirpath ++ "/" ++ sub.name) sub ++ allowedFilesSubs dirpath rest

end

def allowedFilesLocs : List FTree → List String
  | [] => []
  | tr :: rest => allowedFiles tr.name tr ++ allowedFilesLocs rest

/-- The candidate paths whose embedding succeeds, in order. -/
def embedOkPaths (embed : String → Except String Vec) (l : List String) : List String :=
  l.filter (fun p => (embed p).toOption.isSome)

/-- The embedding vectors of the successful candidates, in order. -/
def embedOkVecs (embed : String → Except String Vec) (l : List String) : List Vec :=
  l.filterMap (fun p => (embed p).toOption)

/-- The `(path, reason)` pairs of the candidates whose embedding fails, in
order. -/
def embedFailures (embed : String → Except String Vec) (l : List String) :
    List (String × String) :=
  l.filterMap (fun p =>
    match embed p with
    | .error e => some (p, e)
    | .ok _ => none)

/-! # Helper lemmas -/

theorem mem_distPairs_lt {store : List Vec} {q : Vec} {x : ℕ × ℚ}
    (hx : x ∈ distPairs store q) : x.1 < store.length := by
  rcases List.mem_map.1 hx with ⟨p, hp, rfl⟩
  have h := List.mem_enum_iff_getElem?.1 hp
  exact (List.getElem?_eq_some.1 h).1

theorem filterMap_guard_eq_map {α β : Type} (f : α → β) (p : α → Prop) [DecidablePred p]
    (l : List α) (h : ∀ x ∈ l, p x) :
    l.filterMap (fun x => if p x then some (f x) else none) = l.map f := by
  induction l with
  | nil => rfl
  | cons a l ih =>
    simp only [List.filterMap_cons, List.map_cons]
    rw [if_pos (h a (List.mem_cons_self a l)), ih (fun x hx => h x (List.mem_cons_of_mem a hx))]

theorem length_distPairs (store : List Vec) (q : Vec) :
    (distPairs store q).length = store.length := by
  simp [distPairs]

theorem mem_sorted_distPairs_lt {store : List Vec} {q : Vec} {x : ℕ × ℚ}
    (hx : x ∈ List.insertionSort pairRel (distPairs store q)) : x.1 < store.length :=
  mem_distPairs_lt ((List.mem_insertionSort pairRel).1 hx)

theorem ImageSearcher_search_eq (image_paths : List String) (store : List Vec) (q : Vec)
    (k : ℕ) (hlen : store.length = image_paths.length) :
    ImageSearcher.search image_paths store q (some k) =
      ((List.insertionSort pairRel (distPairs store q)).take (min k image_paths.length)).map
        (fun p => (image_paths.getD p.1 "", p.2)) := by
  unfold ImageSearcher.search faissFlatSearch
  simp only [Option.getD_some]
  exact filterMap_guard_eq_map _ (fun x => x.1 < image_paths.length) _
    (fun x hx => hlen ▸ mem_sorted_distPairs_lt (List.mem_of_mem_take hx))

theorem EngineImageSearcher_search_eq (image_paths : List String) (store : List Vec) (q : Vec)
    (k : ℕ) (hlen : store.length = image_paths.length) :
    EngineImageSearcher.search image_paths store q k =
      ((List.insertionSort pairRel (distPairs store q)).take k).map
        (fun p => (image_paths.getD p.1 "", p.2)) := by
  unfold EngineImageSearcher.search faissFlatSearch
  exact filterMap_guard_eq_map _ (fun x => x.1 < image_paths.length) _
    (fun x hx => hlen ▸ mem_sorted_distPairs_lt (List.mem_of_mem_take hx))

theorem sorted_take_drop {l : List (ℕ × ℚ)} (hs : List.Sorted pairRel l) (k : ℕ) :
    ∀ a ∈ l.take k, ∀ b ∈ l.drop k, pairRel a b := by
  have h : List.Pairwise pairRel (l.take k ++ l.drop k) := by
    rw [List.take_append_drop]; exact hs
  exact (List.pairwise_append.1 h).2.2

/-! # C1 -/

/-- C1 (corrected): for a consistent snapshot, `ImageSearcher.search` returns the first
`min k count` entries of all `(id, squared-L2 distance)` pairs sorted ascending by distance
with ties broken by smaller insertion id (a permutation of all stored entries, every kept
entry ranking no worse than every dropped one), each mapped to its path; and on the index
built from A=[0,0], B=[1,0], C=[5,0], `search([1,0], k=3)` returns `[B, A, C]` with squared
distances `[0, 1, 16]` (the spec's claimed `25` is `16` on the code). -/
theorem C1_search_ranking_amended :
    (∀ (image_paths : List String) (store : List Vec) (q : Vec) (k : ℕ),
      store.length = image_paths.length →
      ImageSearcher.search image_paths store q (some k) =
        ((List.insertionSort pairRel (distPairs store q)).take (min k image_paths.length)).map
          (fun p => (image_paths.getD p.1 "", p.2)) ∧
      List.Sorted pairRel (List.insertionSort pairRel (distPairs store q)) ∧
      (List.insertionSort pairRel (distPairs store q)).Perm (distPairs store q) ∧
      (∀ a ∈ (List.insertionSort pairRel (distPairs store q)).take (min k image_paths.length),
        ∀ b ∈ (List.insertionSort pairRel (distPairs store q)).drop (min k image_paths.length),
          pairRel a b)) ∧
    ImageSearcher.search ["A", "B", "C"] [[0, 0], [1, 0], [5, 0]] [1, 0] (some 3) =
      [("B", 0), ("A", 1), ("C", 16)] := by
  constructor
  · intro image_paths store q k hlen
    refine ⟨ImageSearcher_search_eq _ _ _ _ hlen, List.sorted_insertionSort pairRel _,
      List.perm_insertionSort pairRel _, sorted_take_drop (List.sorted_insertionSort pairRel _) _⟩
  · norm_num [ImageSearcher.search, faissFlatSearch, distPairs, sqDist,
      List.insertionSort, List.orderedInsert, pairRel]
    all_goals decide

/-- C1 witness: the general part of `C1_search_ranking_amended` applied to the concrete
three-vector index. -/
theorem C1_search_ranking_witness :
    ImageSearcher.search ["A", "B", "C"] [[0, 0], [1, 0], [5, 0]] [1, 0] (some 3) =
      ((List.insertionSort pairRel (distPairs [[0, 0], [1, 0], [5, 0]] [1, 0])).take
        (min 3 (["A", "B", "C"] : List String).length)).map
        (fun p => ((["A", "B", "C"] : List String).getD p.1 "", p.2)) :=
  (C1_search_ranking_amended.1 ["A", "B", "C"] [[0, 0], [1, 0], [5, 0]] [1, 0] 3 rfl).1

/-- C1 counterexample: on the index built from A=[0,0], B=[1,0], C=[5,0], the search for
[1,0] with k=3 returns distances `[0, 1, 16]`, not the `[0, 1, 25]` the claim states. -/
theorem C1_search_counterexample :
    ImageSearcher.search ["A", "B", "C"] [[0, 0], [1, 0], [5, 0]] [1, 0] (some 3) =
      [("B", 0), ("A", 1), ("C", 16)] ∧
    ImageSearcher.search ["A", "B", "C"] [[0, 0], [1, 0], [5, 0]] [1, 0] (some 3) ≠
      [("B", 0), ("A", 1), ("C", 25)] := by
  constructor <;>
    · norm_num [ImageSearcher.search, faissFlatSearch, distPairs, sqDist,
        List.insertionSort, List.orderedInsert, pairRel]
      all_goals decide

/-! # C3 -/

/-- C3 (confirmed): when `k` is at least the stored count, both searchers return exactly
all stored entries (a permutation of the canonical id-ordered entry list, hence each entry
exactly once, nothing extra or repeated), and on an empty index both return the empty
list. -/
theorem C3_search_k_bounds :
    (∀ (image_paths : List String) (store : List Vec) (q : Vec) (k : ℕ),
      store.length = image_paths.length → image_paths.length ≤ k →
      (ImageSearcher.search image_paths store q (some k)).Perm
        ((distPairs store q).map (fun p => (image_paths.getD p.1 "", p.2))) ∧
      (EngineImageSearcher.search image_paths store q k).Perm
        ((distPairs store q).map (fun p => (image_paths.getD p.1 "", p.2)))) ∧
    (∀ (q : Vec) (k : Option ℕ) (k2 : ℕ),
      ImageSearcher.search [] [] q k = [] ∧ EngineImageSearcher.search [] [] q k2 = []) := by
  constructor
  · intro image_paths store q k hlen hk
    have hlensort : (List.insertionSort pairRel (distPairs store q)).length = image_paths.length := by
      rw [List.length_insertionSort, length_distPairs, hlen]
    constructor
    · rw [ImageSearcher_search_eq _ _ _ _ hlen, min_eq_right hk,
        List.take_of_length_le (le_of_eq hlensort)]
      exact (List.perm_insertionSort pairRel _).map _
    · rw [EngineImageSearcher_search_eq _ _ _ _ hlen,
        List.take_of_length_le (hlensort ▸ hk)]
      exact (List.perm_insertionSort pairRel _).map _
  · intro q k k2
    constructor
    · cases k <;> simp [ImageSearcher.search, faissFlatSearch, distPairs]
    · simp [EngineImageSearcher.search, faissFlatSearch, distPairs]

/-- C3 witness: both parts applied to a concrete two-entry index with `k = 5`. -/
theorem C3_search_k_bounds_witness :
    (ImageSearcher.search ["a", "b"] [[0], [3]] [1] (some 5)).Perm
      ((distPairs [[0], [3]] [1]).map
        (fun p => ((["a", "b"] : List String).getD p.1 "", p.2))) :=
  (C3_search_k_bounds.1 ["a", "b"] [[0], [3]] [1] 5 rfl (by norm_num)).1

/-! # C2 -/

/-- C2 (corrected): the single-file app's `MainWindow.search_image` drops every result
whose canonicalized absolute path equals the query's, for an arbitrary canonicalization
function `abspath` (so a relative query resolving to an indexed absolute path is still
excluded); the modular GUI (`src/gui/main_window.py`) applies no such filter. -/
theorem C2_self_exclusion_amended :
    ∀ (abspath : String → String) (image_paths : List String) (store : List Vec)
      (query_embedding : Vec) (image_path : String) (r : String × ℚ),
      r ∈ MainWindow.filtered_search_results abspath image_paths store query_embedding
        image_path →
      abspath r.1 ≠ abspath image_path := by
  intro abspath image_paths store q qp r hr
  have h := List.of_mem_filter hr
  simpa [bne_iff_ne] using h

/-- C2 witness: with identity canonicalization, a surviving result's path differs from the
query path on a concrete two-image index queried with its own first image. -/
theorem C2_self_exclusion_witness :
    (fun s => s) "y.jpg" ≠ (fun s => s) "x.jpg" :=
  C2_self_exclusion_amended (fun s => s) ["x.jpg", "y.jpg"] [[0, 0], [1, 1]] [0, 0] "x.jpg"
    ("y.jpg", 2)
    (by
      norm_num [MainWindow.filtered_search_results, ImageSearcher.search, faissFlatSearch,
        distPairs, sqDist, List.insertionSort, List.orderedInsert, pairRel]
      all_goals decide)

/-- C2 counterexample: the modular GUI's search (`src/gui/main_window.py` lines 65–85)
returns the indexed image `x.jpg` itself when `x.jpg` is the query: the claim's "X never
appears in the returned result list" fails on that code path. -/
theorem C2_self_match_counterexample :
    GuiMainWindow.search_image_results ["x.jpg"] [[0, 0]] [0, 0] = [("x.jpg", 0)] ∧
    ("x.jpg", (0 : ℚ)) ∈ GuiMainWindow.search_image_results ["x.jpg"] [[0, 0]] [0, 0] := by
  have h : GuiMainWindow.search_image_results ["x.jpg"] [[0, 0]] [0, 0] = [("x.jpg", 0)] := by
    norm_num [GuiMainWindow.search_image_results, EngineImageSearcher.search, faissFlatSearch,
      distPairs, sqDist, List.insertionSort, List.orderedInsert, pairRel]
    all_goals decide
  exact ⟨h, by rw [h]; exact List.mem_singleton_self _⟩

/-! # C4 -/

/-- C4 counterexample: starting from the consistent snapshot (1 vector, 1 path), stopping
`save` after its first write (the index artifact) leaves the disk readable (both artifacts
present) yet inconsistent (2 vectors against 1 path), a state equal neither to the prior
snapshot nor to the completed new one — contradicting the claimed atomicity. -/
theorem C4_atomicity_counterexample :
    readableFS (write_index [[0], [1]] ⟨some [[0]], some ["a"]⟩) = true ∧
    consistentFS (write_index [[0], [1]] ⟨some [[0]], some ["a"]⟩) = false ∧
    write_index [[0], [1]] ⟨some [[0]], some ["a"]⟩ ≠ (⟨some [[0]], some ["a"]⟩ : FS) ∧
    write_index [[0], [1]] ⟨some [[0]], some ["a"]⟩ ≠
      save [[0], [1]] ["a", "b"] ⟨some [[0]], some ["a"]⟩ := by
  refine ⟨rfl, rfl, ?_, ?_⟩ <;> simp [write_index, save, write_paths]

/-- C4 (corrected): `save` is the plain sequential composition of the two in-place writes
(index artifact first, then path list) with no temporary file or atomic replacement; after
the first write alone, whenever the new vector count differs from the previously stored
path count, the disk is readable but count-inconsistent, while the completed save holds
both new artifacts. -/
theorem C4_save_not_atomic_amended :
    ∀ (v : List Vec) (p oldPaths : List String) (fs0 : FS),
      fs0.pathsFile = some oldPaths → oldPaths.length ≠ v.length →
      save v p fs0 = write_paths p (write_index v fs0) ∧
      readableFS (write_index v fs0) = true ∧
      consistentFS (write_index v fs0) = false ∧
      (save v p fs0).indexFile = some v ∧ (save v p fs0).pathsFile = some p := by
  intro v p oldPaths fs0 hp hne
  refine ⟨rfl, ?_, ?_, rfl, rfl⟩
  · simp [readableFS, write_index, hp]
  · simp only [consistentFS, write_index, hp]
    exact beq_eq_false_iff_ne.2 (Ne.symm hne)

/-- C4 witness: the amended statement at the concrete snapshot of the counterexample. -/
theorem C4_save_not_atomic_witness :
    readableFS (write_index [[0], [1]] ⟨some [[0]], some ["a"]⟩) = true ∧
    consistentFS (write_index [[0], [1]] ⟨some [[0]], some ["a"]⟩) = false :=
  ⟨(C4_save_not_atomic_amended [[0], [1]] ["a", "b"] ["a"] ⟨some [[0]], some ["a"]⟩ rfl
      (by norm_num)).2.1,
   (C4_save_not_atomic_amended [[0], [1]] ["a", "b"] ["a"] ⟨some [[0]], some ["a"]⟩ rfl
      (by norm_num)).2.2.1⟩

/-! # C7 helper lemmas -/

theorem le_foldl_max (x : ℚ) (l : List ℚ) : x ≤ l.foldl max x := by
  induction l generalizing x with
  | nil => exact le_refl x
  | cons y l ih => exact le_trans (le_max_left x y) (ih (max x y))

theorem foldl_min_le (x : ℚ) (l : List ℚ) : l.foldl min x ≤ x := by
  induction l generalizing x with
  | nil => exact le_refl x
  | cons y l ih => exact le_trans (ih (min x y)) (min_le_left x y)

theorem mem_le_foldl_max {l : List ℚ} {d : ℚ} (hd : d ∈ l) : ∀ x, d ≤ l.foldl max x := by
  induction l with
  | nil => cases hd
  | cons y ys ih =>
    intro x
    rcases List.mem_cons.1 hd with rfl | hd'
    · exact le_trans (le_max_right x d) (le_foldl_max _ ys)
    · exact ih hd' (max x y)

theorem foldl_min_le_mem {l : List ℚ} {d : ℚ} (hd : d ∈ l) : ∀ x, l.foldl min x ≤ d := by
  induction l with
  | nil => cases hd
  | cons y ys ih =>
    intro x
    rcases List.mem_cons.1 hd with rfl | hd'
    · exact le_trans (foldl_min_le _ ys) (min_le_right x d)
    · exact ih hd' (min x y)

theorem mem_le_listMax {l : List ℚ} {d : ℚ} (hd : d ∈ l) : d ≤ listMax l := by
  cases l with
  | nil => cases hd
  | cons x xs =>
    rcases List.mem_cons.1 hd with rfl | hd'
    · exact le_foldl_max d xs
    · exact mem_le_foldl_max hd' x

theorem listMin_le_mem {l : List ℚ} {d : ℚ} (hd : d ∈ l) : listMin l ≤ d := by
  cases l with
  | nil => cases hd
  | cons x xs =>
    rcases List.mem_cons.1 hd with rfl | hd'
    · exact foldl_min_le d xs
    · exact foldl_min_le_mem hd' x

/-! # C7 -/

/-- C7 (confirmed): `display_results` maps each raw distance of the returned set to its
similarity; when the set's max equals its min (so in particular for every singleton set)
every similarity is 100, otherwise each similarity equals
`clamp(100 − (d − min) / (max − min) × 100, 0, 100)`; and the similarities are antitone in
the distance, so the ascending-by-distance result order is preserved. -/
theorem C7_similarity_normalization :
    ∀ distances : List ℚ,
      MainWindow.display_similarities distances =
        distances.map (fun d => MainWindow.similarity (listMin distances)
          (listMax distances - listMin distances) d) ∧
      (∀ d ∈ distances, listMax distances = listMin distances →
        MainWindow.similarity (listMin distances) (listMax distances - listMin distances) d
          = 100) ∧
      (∀ d ∈ distances, listMax distances ≠ listMin distances →
        MainWindow.similarity (listMin distances) (listMax distances - listMin distances) d
          = clamp (100 - (d - listMin distances) / (listMax distances - listMin distances)
              * 100) 0 100) ∧
      (∀ d : ℚ, MainWindow.display_similarities [d] = [100]) ∧
      (∀ d1 ∈ distances, ∀ d2 ∈ distances, d1 ≤ d2 →
        MainWindow.similarity (listMin distances) (listMax distances - listMin distances) d2
          ≤ MainWindow.similarity (listMin distances) (listMax distances - listMin distances)
              d1) := by
  intro distances
  refine ⟨?_, ?_, ?_, ?_, ?_⟩
  · cases distances with
    | nil => rfl
    | cons x xs => rfl
  · intro d _ hmm
    simp [MainWindow.similarity, sub_eq_zero.2 hmm]
  · intro d hd hne
    have hmn := listMin_le_mem hd
    have hmx := mem_le_listMax hd
    have hlt : listMin distances < listMax distances :=
      lt_of_le_of_ne (le_trans hmn hmx) (Ne.symm hne)
    have hr : listMax distances - listMin distances ≠ 0 := by
      exact sub_ne_zero.2 hne
    have hrpos : (0 : ℚ) < listMax distances - listMin distances := sub_pos.2 hlt
    rw [MainWindow.similarity, if_neg hr, clamp]
    have hnn : 0 ≤ (d - listMin distances) / (listMax distances - listMin distances) * 100 :=
      mul_nonneg (div_nonneg (sub_nonneg.2 hmn) (le_of_lt hrpos)) (by norm_num)
    have hle : max 0 (100 - (d - listMin distances) /
        (listMax distances - listMin distances) * 100) ≤ 100 :=
      max_le (by norm_num) (sub_le_self 100 hnn)
    exact (min_eq_right hle).symm
  · intro d
    simp [MainWindow.display_similarities, listMax, listMin, MainWindow.similarity]
  · intro d1 _ d2 _ h12
    by_cases hz : listMax distances - listMin distances = 0
    · simp [MainWindow.similarity, hz]
    · have hpos : (0 : ℚ) < listMax distances - listMin distances := by
        rcases lt_or_gt_of_ne hz with h | h
        · exfalso
          cases distances with
          | nil => simp [listMax, listMin] at hz
          | cons x xs =>
            have : listMin (x :: xs) ≤ listMax (x :: xs) :=
              le_trans (listMin_le_mem (List.mem_cons_self x xs))
                (mem_le_listMax (List.mem_cons_self x xs))
            linarith
        · exact h
      simp only [MainWindow.similarity, if_neg hz]
      have hdiv : (d1 - listMin distances) / (listMax distances - listMin distances) ≤
          (d2 - listMin distances) / (listMax distances - listMin distances) :=
        (div_le_div_iff_of_pos_right hpos).2 (sub_le_sub_right h12 (listMin distances))
      have hmul : (d1 - listMin distances) / (listMax distances - listMin distances) * 100 ≤
          (d2 - listMin distances) / (listMax distances - listMin distances) * 100 :=
        mul_le_mul_of_nonneg_right hdiv (by norm_num)
      exact max_le_max (le_refl 0) (sub_le_sub_left hmul 100)

/-- C7 witness: a singleton result set (max = min) normalizes to similarity 100. -/
theorem C7_similarity_witness :
    MainWindow.similarity (listMin [5]) (listMax [5] - listMin [5]) 5 = 100 :=
  (C7_similarity_normalization [5]).2.1 5 (List.mem_singleton_self 5) rfl

/-! # Scan-phase helper lemmas -/

theorem walkFiles_none (d : String) (files : List FileEnt) : ∀ st : ScanSt,
    ∃ st', walkFiles none d files st = .ok st' ∧
      st'.images = st.images ++ (files.filter is_valid_image_file).map
        (fun f => d ++ "/" ++ f.name) ∧
      st'.prog = st.prog ∧ st'.folders = st.folders := by
  induction files with
  | nil => exact fun st => ⟨st, rfl, by simp, rfl, rfl⟩
  | cons f rest ih =>
    intro st
    by_cases hv : is_valid_image_file f
    · obtain ⟨st', h1, h2, h3, h4⟩ := ih
        { st with t := st.t + 1, images := st.images ++ [d ++ "/" ++ f.name] }
      refine ⟨st', ?_, ?_, h3, h4⟩
      · rw [walkFiles]
        simpa [flagAt, hv] using h1
      · rw [h2]
        simp [List.filter_cons, hv]
    · obtain ⟨st', h1, h2, h3, h4⟩ := ih { st with t := st.t + 1 }
      refine ⟨st', ?_, ?_, h3, h4⟩
      · rw [walkFiles]
        simpa [flagAt, hv] using h1
      · rw [h2]
        simp [List.filter_cons, hv]

theorem emit_pct_bounds {f : ℕ} (hf : 0 < f) (hmod : f % 100 = 0) :
    16 ≤ min 40 (15 + f / 100) ∧ min 40 (15 + f / 100) ≤ 40 :=
  ⟨le_min (by omega) (by omega), min_le_left _ _⟩

mutual

theorem walkTree_none (tr : FTree) : ∀ (d : String) (st : ScanSt),
    ∃ st', walkTree none d tr st = .ok st' ∧
      st'.images = st.images ++ allowedFiles d tr ∧
      ∃ new, st'.prog = st.prog ++ new ∧ ∀ e ∈ new, 16 ≤ e.2 ∧ e.2 ≤ 40 := by
  cases tr with
  | node nm files subs =>
    intro d st
    by_cases hex : should_exclude_folder nm
    · refine ⟨{ st with t := st.t + 1, folders := st.folders + 1 }, ?_, ?_, [], by simp,
        by simp⟩
      · rw [walkTree]
        simp [flagAt, hex]
      · simp [allowedFiles, hex]
    · obtain ⟨st2, hw, h2img, h2prog, h2fold⟩ := walkFiles_none d files
        { st with t := st.t + 1, folders := st.folders + 1 }
      by_cases hemit : st2.folders % 100 == 0
      · obtain ⟨st', hs, h3img, new2, h3prog, h3bound⟩ := walkSubs_none subs d
          { st2 with prog := st2.prog ++ [(scanMsg st2.folders st2.images.length,
              min 40 (15 + st2.folders / 100))] }
        have hbnd := emit_pct_bounds (f := st2.folders)
          (by rw [h2fold]; exact Nat.succ_pos _) (by simpa using hemit)
        refine ⟨st', ?_, ?_, (scanMsg st2.folders st2.images.length,
            min 40 (15 + st2.folders / 100)) :: new2, ?_, ?_⟩
        · rw [walkTree]
          simp only [flagAt, Bool.false_eq_true, if_false, hex, hw, hemit, if_true]
          exact hs
        · rw [h3img]
          simp only [h2img]
          simp [allowedFiles, hex]
        · rw [h3prog]
          simp [h2prog]
        · intro e he
          rcases List.mem_cons.1 he with rfl | he'
          · exact hbnd
          · exact h3bound e he'
      · obtain ⟨st', hs, h3img, new2, h3prog, h3bound⟩ := walkSubs_none subs d st2
        refine ⟨st', ?_, ?_, new2, ?_, h3bound⟩
        · rw [walkTree]
          simp only [flagAt, Bool.false_eq_true, if_false, hex, hw, hemit]
          exact hs
        · rw [h3img]
          simp only [h2img]
          simp [allowedFiles, hex]
        · rw [h3prog, h2prog]

theorem walkSubs_none (l : List FTree) : ∀ (d : String) (st : ScanSt),
    ∃ st', walkSubs none d l st = .ok st' ∧
      st'.images = st.images ++ allowedFilesSubs d l ∧
      ∃ new, st'.prog = st.prog ++ new ∧ ∀ e ∈ new, 16 ≤ e.2 ∧ e.2 ≤ 40 := by
  cases l with
  | nil =>
    intro d st
    exact ⟨st, rfl, by simp [allowedFilesSubs], [], by simp, by simp⟩
  | cons sub rest =>
    intro d st
    obtain ⟨st1, h1, h1img, new1, h1prog, h1bound⟩ := walkTree_none sub (d ++ "/" ++ sub.name) st
    obtain ⟨st', h2, h2img, new2, h2prog, h2bound⟩ := walkSubs_none rest d st1
    refine ⟨st', ?_, ?_, new1 ++ new2, ?_, ?_⟩
    · rw [walkSubs, h1]
      exact h2
    · rw [h2img, h1img]
      simp [allowedFilesSubs]
    · rw [h2prog, h1prog]
      simp
    · intro e he
      rcases List.mem_append.1 he with he' | he'
      · exact h1bound e he'
      · exact h2bound e he'

end

theorem scanLocations_none (locs : List FTree) : ∀ st : ScanSt,
    ∃ st', scanLocations none locs st = .ok st' ∧
      st'.images = st.images ++ allowedFilesLocs locs ∧
      ∃ new, st'.prog = st.prog ++ new ∧ ∀ e ∈ new, 16 ≤ e.2 ∧ e.2 ≤ 40 := by
  induction locs with
  | nil => exact fun st => ⟨st, rfl, by simp [allowedFilesLocs], [], by simp, by simp⟩
  | cons tr rest ih =>
    intro st
    obtain ⟨st1, h1, h1img, new1, h1prog, h1bound⟩ := walkTree_none tr tr.name
      { st with t := st.t + 1 }
    obtain ⟨st', h2, h2img, new2, h2prog, h2bound⟩ := ih st1
    refine ⟨st', ?_, ?_, new1 ++ new2, ?_, ?_⟩
    · rw [scanLocations]
      simp only [flagAt, Bool.false_eq_true, if_false, h1]
      exact h2
    · rw [h2img, h1img]
      simp [allowedFilesLocs]
    · rw [h2prog, h1prog]
      simp
    · intro e he
      rcases List.mem_append.1 he with he' | he'
      · exact h1bound e he'
      · exact h2bound e he'

/-! # Embedding-phase helper lemmas -/

theorem embedLoop_none (embed : String → Except String Vec) (n : ℕ)
    (l : List (ℕ × String)) : ∀ st : EmbSt,
    ∃ st', embedLoop none embed n l st = .ok st' ∧
      st'.embeddings_list = st.embeddings_list ++ embedOkVecs embed (l.map Prod.snd) ∧
      st'.image_paths = st.image_paths ++ embedOkPaths embed (l.map Prod.snd) ∧
      st'.processed_count = st.processed_count +
        (embedOkPaths embed (l.map Prod.snd)).length ∧
      st'.failed_images = st.failed_images ++ embedFailures embed (l.map Prod.snd) ∧
      st'.prog.map Prod.snd = st.prog.map Prod.snd ++ l.filterMap
        (fun p => if p.1 % 10 == 0 || p.1 == n - 1 then some (45 + p.1 * 40 / n)
                  else none) := by
  induction l with
  | nil =>
    intro st
    exact ⟨st, rfl, by simp [embedOkVecs], by simp [embedOkPaths],
      by simp [embedOkPaths], by simp [embedFailures], by simp⟩
  | cons p rest ih =>
    obtain ⟨i, img⟩ := p
    intro st
    cases hembed : embed img with
    | ok v =>
      by_cases hemit : (i % 10 == 0 || i == n - 1) = true
      · obtain ⟨st', h1, h2, h3, h4, h5, h6⟩ := ih { st with t := st.t + 1, embeddings_list := st.embeddings_list ++ [v], image_paths := st.image_paths ++ [img], processed_count := st.processed_count + 1, prog := st.prog ++ [(embedMsg (st.processed_count + 1) n, 45 + i * 40 / n)] }
        refine ⟨st', ?_, ?_, ?_, ?_, ?_, ?_⟩
        · rw [embedLoop]
          simpa [flagAt, hembed, hemit] using h1
        · rw [h2]; simp [embedOkVecs, hembed, Except.toOption]
        · rw [h3]; simp [embedOkPaths, hembed, Except.toOption]
        · rw [h4]; simp [embedOkPaths, hembed, Except.toOption]; omega
        · rw [h5]; simp [embedFailures, hembed]
        · rw [h6]
          have hemit' : i % 10 = 0 ∨ i = n - 1 := by simpa using hemit
          simp [List.filterMap_cons, hemit']
      · obtain ⟨st', h1, h2, h3, h4, h5, h6⟩ := ih { st with t := st.t + 1, embeddings_list := st.embeddings_list ++ [v], image_paths := st.image_paths ++ [img], processed_count := st.processed_count + 1 }
        refine ⟨st', ?_, ?_, ?_, ?_, ?_, ?_⟩
        · rw [embedLoop]
          simpa [flagAt, hembed, hemit] using h1
        · rw [h2]; simp [embedOkVecs, hembed, Except.toOption]
        · rw [h3]; simp [embedOkPaths, hembed, Except.toOption]
        · rw [h4]; simp [embedOkPaths, hembed, Except.toOption]; omega
        · rw [h5]; simp [embedFailures, hembed]
        · rw [h6]
          have hemit' : ¬(i % 10 = 0 ∨ i = n - 1) := by simpa using hemit
          simp [List.filterMap_cons, hemit']
    | error err =>
      by_cases hemit : (i % 10 == 0 || i == n - 1) = true
      · obtain ⟨st', h1, h2, h3, h4, h5, h6⟩ := ih { st with t := st.t + 1, failed_images := st.failed_images ++ [(img, err)], prog := st.prog ++ [(embedMsg st.processed_count n, 45 + i * 40 / n)] }
        refine ⟨st', ?_, ?_, ?_, ?_, ?_, ?_⟩
        · rw [embedLoop]
          simpa [flagAt, hembed, hemit] using h1
        · rw [h2]; simp [embedOkVecs, hembed, Except.toOption]
        · rw [h3]; simp [embedOkPaths, hembed, Except.toOption]
        · rw [h4]; simp [embedOkPaths, hembed, Except.toOption]
        · rw [h5]; simp [embedFailures, hembed]
        · rw [h6]
          have hemit' : i % 10 = 0 ∨ i = n - 1 := by simpa using hemit
          simp [List.filterMap_cons, hemit']
      · obtain ⟨st', h1, h2, h3, h4, h5, h6⟩ := ih { st with t := st.t + 1, failed_images := st.failed_images ++ [(img, err)] }
        refine ⟨st', ?_, ?_, ?_, ?_, ?_, ?_⟩
        · rw [embedLoop]
          simpa [flagAt, hembed, hemit] using h1
        · rw [h2]; simp [embedOkVecs, hembed, Except.toOption]
        · rw [h3]; simp [embedOkPaths, hembed, Except.toOption]
        · rw [h4]; simp [embedOkPaths, hembed, Except.toOption]
        · rw [h5]; simp [embedFailures, hembed]
        · rw [h6]
          have hemit' : ¬(i % 10 = 0 ∨ i = n - 1) := by simpa using hemit
          simp [List.filterMap_cons, hemit']

theorem embedOk_lengths (embed : String → Except String Vec) (l : List String) :
    (embedOkVecs embed l).length = (embedOkPaths embed l).length := by
  induction l with
  | nil => rfl
  | cons p rest ih =>
    simp only [embedOkVecs, embedOkPaths, Except.toOption] at ih ⊢
    cases h : embed p with
    | ok v => simp [List.filterMap_cons, List.filter_cons, h, ih]
    | error e => simp [List.filterMap_cons, List.filter_cons, h, ih]

/-! # Run-level helper lemmas -/

theorem index_images_cases (lm : Except String Unit) (embed : String → Except String Vec)
    (t0 : Option ℕ) (wm : Bool) (locs : List FTree) (fs0 : FS) :
    ∀ r : RunOut, index_images lm embed t0 wm locs fs0 = r →
      (r.cancelledRet = true ∧ r.fs = fs0 ∧ r.finished = []) ∨
      (r.cancelledRet = false ∧ r.finished.length = 1) := by
  intro r hr
  unfold index_images afterScan afterEmbed at hr
  dsimp only at hr
  repeat' split at hr
  all_goals first
    | (left; rw [← hr]; exact ⟨rfl, rfl, rfl⟩)
    | (right; rw [← hr]; exact ⟨rfl, rfl⟩)

theorem index_images_none_eq (embed : String → Except String Vec) (wm : Bool)
    (locs : List FTree) (fs0 : FS) :
    ∃ st : ScanSt, scanLocations none locs (initScanSt wm) = .ok st ∧
      st.images = allowedFilesLocs locs ∧
      (∃ new, st.prog = initProg wm ++ new ∧ ∀ e ∈ new, 16 ≤ e.2 ∧ e.2 ≤ 40) ∧
      index_images (.ok ()) embed none wm locs fs0 = afterScan embed none st fs0 := by
  obtain ⟨st, h1, h2, hpr⟩ := scanLocations_none locs (initScanSt wm)
  refine ⟨st, h1, by simpa [initScanSt] using h2, by simpa [initScanSt] using hpr, ?_⟩
  unfold index_images
  rw [h1]

theorem afterScan_none_eq (embed : String → Except String Vec) (st : ScanSt) (fs0 : FS)
    (hne : ¬ st.images.isEmpty) :
    ∃ est : EmbSt, afterScan embed none st fs0 = afterEmbed est fs0 ∧
      est.embeddings_list = embedOkVecs embed (dedupKeepFirst st.images) ∧
      est.image_paths = embedOkPaths embed (dedupKeepFirst st.images) ∧
      est.processed_count = (embedOkPaths embed (dedupKeepFirst st.images)).length ∧
      est.failed_images = embedFailures embed (dedupKeepFirst st.images) ∧
      est.prog.map Prod.snd = st.prog.map Prod.snd ++ [45] ++
        (dedupKeepFirst st.images).enum.filterMap
          (fun p => if p.1 % 10 == 0 || p.1 == (dedupKeepFirst st.images).length - 1
                    then some (45 + p.1 * 40 / (dedupKeepFirst st.images).length)
                    else none) := by
  obtain ⟨est, h1, h2, h3, h4, h5, h6⟩ := embedLoop_none embed
    (dedupKeepFirst st.images).length (dedupKeepFirst st.images).enum
    { t := st.t, embeddings_list := [], image_paths := [], processed_count := 0, failed_images := [], prog := st.prog ++ [("🚀 Processing " ++ toString (dedupKeepFirst st.images).length ++ " unique images...", 45)] }
  refine ⟨est, ?_, ?_, ?_, ?_, ?_, ?_⟩
  · unfold afterScan
    rw [if_neg (by simpa using hne)]
    dsimp only
    rw [h1]
  · simpa [List.enum_map_snd] using h2
  · simpa [List.enum_map_snd] using h3
  · simpa [List.enum_map_snd] using h4
  · simpa [List.enum_map_snd] using h5
  · rw [h6]
    simp

theorem index_images_none_not_cancelled (lm : Except String Unit)
    (embed : String → Except String Vec) (wm : Bool) (locs : List FTree) (fs0 : FS) :
    (index_images lm embed none wm locs fs0).cancelledRet = false := by
  cases lm with
  | error e => rfl
  | ok u =>
    obtain ⟨st, h1, h2, hpr, hrun⟩ := index_images_none_eq embed wm locs fs0
    rw [hrun]
    by_cases hemp : st.images.isEmpty
    · unfold afterScan
      rw [if_pos hemp]
    · obtain ⟨est, he1, he2, _, _, _, _⟩ := afterScan_none_eq embed st fs0 hemp
      rw [he1]
      unfold afterEmbed
      by_cases hfin : est.embeddings_list.isEmpty
      · rw [if_pos hfin]
      · rw [if_neg hfin]

/-! # C5 -/

/-- C5 (confirmed): in a run with a loaded model and no cancellation, every
individual embedding error is recorded as a `(path, reason)` pair in the per-run
failure list without aborting the run; the run emits the failure signal and leaves
the prior snapshot untouched exactly when zero images embed successfully (either no
candidate was found or every embedding failed); and whenever at least one image
embeds, the run emits the success signal carrying the embedded count and replaces
the snapshot with exactly the successfully embedded vectors and their paths. -/
theorem C5_failure_handling :
    ∀ (embed : String → Except String Vec) (wm : Bool) (locs : List FTree) (fs0 : FS),
      (index_images (.ok ()) embed none wm locs fs0).failed_images =
        embedFailures embed (dedupKeepFirst (allowedFilesLocs locs)) ∧
      (allowedFilesLocs locs = [] →
        (index_images (.ok ()) embed none wm locs fs0).finished =
          [(false, "No images found to index!", 0)] ∧
        (index_images (.ok ()) embed none wm locs fs0).fs = fs0) ∧
      (allowedFilesLocs locs ≠ [] →
        embedOkPaths embed (dedupKeepFirst (allowedFilesLocs locs)) = [] →
        (index_images (.ok ()) embed none wm locs fs0).finished =
          [(false, "No images could be processed!", 0)] ∧
        (index_images (.ok ()) embed none wm locs fs0).fs = fs0) ∧
      (embedOkPaths embed (dedupKeepFirst (allowedFilesLocs locs)) ≠ [] →
        (index_images (.ok ()) embed none wm locs fs0).finished =
          [(true, "✅ Successfully indexed " ++
            toString (embedOkPaths embed (dedupKeepFirst (allowedFilesLocs locs))).length ++
            " images!",
            (embedOkPaths embed (dedupKeepFirst (allowedFilesLocs locs))).length)] ∧
        (index_images (.ok ()) embed none wm locs fs0).fs =
          save (embedOkVecs embed (dedupKeepFirst (allowedFilesLocs locs)))
            (embedOkPaths embed (dedupKeepFirst (allowedFilesLocs locs))) fs0) := by
  intro embed wm locs fs0
  obtain ⟨st, hscan, himg, hpr, hrun⟩ := index_images_none_eq embed wm locs fs0
  by_cases hemp : st.images.isEmpty
  · have hall : allowedFilesLocs locs = [] := by
      rw [← himg]
      exact List.isEmpty_iff.1 hemp
    have hrun' : index_images (.ok ()) embed none wm locs fs0 =
        { finished := [(false, "No images found to index!", 0)], prog := st.prog, failed_images := [], fs := fs0, cancelledRet := false } := by
      rw [hrun]
      unfold afterScan
      rw [if_pos hemp]
    refine ⟨?_, ?_, ?_, ?_⟩
    · rw [hrun', hall]
      simp [dedupKeepFirst, dedupGo, embedFailures]
    · intro _
      rw [hrun']
      exact ⟨rfl, rfl⟩
    · intro hne _
      exact absurd hall hne
    · intro hok
      rw [hall] at hok
      exact absurd rfl hok
  · have hall : allowedFilesLocs locs ≠ [] := by
      rw [← himg]
      intro h
      rw [h] at hemp
      exact hemp rfl
    obtain ⟨est, he1, he2, he3, he4, he5, he6⟩ := afterScan_none_eq embed st fs0 hemp
    rw [himg] at he2 he3 he4 he5
    have hrun2 : index_images (.ok ()) embed none wm locs fs0 = afterEmbed est fs0 := by
      rw [hrun, he1]
    by_cases hfin : est.embeddings_list.isEmpty
    · have hvec : embedOkVecs embed (dedupKeepFirst (allowedFilesLocs locs)) = [] := by
        rw [← he2]
        exact List.isEmpty_iff.1 hfin
      have hpathnil : embedOkPaths embed (dedupKeepFirst (allowedFilesLocs locs)) = [] := by
        have hl := embedOk_lengths embed (dedupKeepFirst (allowedFilesLocs locs))
        rw [hvec] at hl
        exact List.length_eq_zero.1 hl.symm
      have hrun3 : index_images (.ok ()) embed none wm locs fs0 =
          { finished := [(false, "No images could be processed!", 0)], prog := est.prog, failed_images := est.failed_images, fs := fs0, cancelledRet := false } := by
        rw [hrun2]
        unfold afterEmbed
        rw [if_pos hfin]
      refine ⟨?_, ?_, ?_, ?_⟩
      · rw [hrun3]
        exact he5
      · intro h
        exact absurd h hall
      · intro _ _
        rw [hrun3]
        exact ⟨rfl, rfl⟩
      · intro hok
        exact absurd hpathnil hok
    · have hpathne : embedOkPaths embed (dedupKeepFirst (allowedFilesLocs locs)) ≠ [] := by
        intro h
        apply hfin
        have hl := embedOk_lengths embed (dedupKeepFirst (allowedFilesLocs locs))
        rw [h] at hl
        rw [List.isEmpty_iff, ← he2] at *
        rw [he2]
        exact List.length_eq_zero.1 hl
      have hrun4 : index_images (.ok ()) embed none wm locs fs0 =
          { finished := [(true, "✅ Successfully indexed " ++ toString est.processed_count ++ " images!", est.processed_count)], prog := est.prog ++ [("💾 Building search index...", 90), ("💾 Saving index files...", 95)], failed_images := est.failed_images, fs := save est.embeddings_list est.image_paths fs0, cancelledRet := false } := by
        rw [hrun2]
        unfold afterEmbed
        rw [if_neg hfin]
      refine ⟨?_, ?_, ?_, ?_⟩
      · rw [hrun4]
        exact he5
      · intro h
        exact absurd h hall
      · intro _ h
        exact absurd h hpathne
      · intro _
        rw [hrun4, he2, he3, he4]
        exact ⟨rfl, rfl⟩

/-- C5 witness: a run over no roots finds no candidates, emits the failure signal, and
leaves the prior (empty) disk state unchanged. -/
theorem C5_failure_handling_witness :
    (index_images (.ok ()) (fun _ => .ok [1]) none false [] ⟨none, none⟩).finished =
      [(false, "No images found to index!", 0)] ∧
    (index_images (.ok ()) (fun _ => .ok [1]) none false [] ⟨none, none⟩).fs = ⟨none, none⟩ :=
  (C5_failure_handling (fun _ => .ok [1]) false [] ⟨none, none⟩).2.1 rfl

/-! # C6 -/

/-- C6 (confirmed): whenever an `index_images` run ends at a stop-flag check (the
cooperative checks sit at the location, directory and file boundaries of the scan and
before each image's embedding), the run returns without emitting any terminal signal and
the on-disk snapshot is exactly the prior state, byte for byte; and a run whose flag is
set from the start and which has at least one root to scan does end at a stop-flag
check. -/
theorem C6_cancellation :
    (∀ (lm : Except String Unit) (embed : String → Except String Vec) (t0 : Option ℕ)
       (wm : Bool) (locs : List FTree) (fs0 : FS),
      (index_images lm embed t0 wm locs fs0).cancelledRet = true →
      (index_images lm embed t0 wm locs fs0).fs = fs0 ∧
      (index_images lm embed t0 wm locs fs0).finished = []) ∧
    (∀ (embed : String → Except String Vec) (wm : Bool) (tr : FTree) (rest : List FTree)
       (fs0 : FS),
      (index_images (.ok ()) embed (some 0) wm (tr :: rest) fs0).cancelledRet = true) := by
  constructor
  · intro lm embed t0 wm locs fs0 hc
    rcases index_images_cases lm embed t0 wm locs fs0 _ rfl with ⟨_, h2, h3⟩ | ⟨h1, _⟩
    · exact ⟨h2, h3⟩
    · rw [hc] at h1
      cases h1
  · intro embed wm tr rest fs0
    unfold index_images scanLocations
    simp [flagAt, initScanSt]

/-- C6 witness: with the stop flag set before the run starts, a concrete one-root run
leaves the concrete prior snapshot unchanged and emits no terminal signal. -/
theorem C6_cancellation_witness :
    (index_images (.ok ()) (fun _ => .ok [1]) (some 0) false [FTree.node "pics" [] []]
      ⟨some [[1]], some ["a"]⟩).fs = ⟨some [[1]], some ["a"]⟩ ∧
    (index_images (.ok ()) (fun _ => .ok [1]) (some 0) false [FTree.node "pics" [] []]
      ⟨some [[1]], some ["a"]⟩).finished = [] :=
  C6_cancellation.1 (.ok ()) (fun _ => .ok [1]) (some 0) false [FTree.node "pics" [] []]
    ⟨some [[1]], some ["a"]⟩
    (C6_cancellation.2 (fun _ => .ok [1]) false (FTree.node "pics" [] []) [] ⟨some [[1]], some ["a"]⟩)

/-! # C10 -/

/-- C10 (confirmed): `index_images` is total — every raised error is caught, a model-load
error becoming the single failure signal with the disk untouched; a run that does not end
at a stop-flag check emits exactly one terminal `finished_signal`; a run that ends at a
stop-flag check emits none; and when cancellation is never requested the run never ends at
a stop-flag check. -/
theorem C10_terminal_signals :
    (∀ (lm : Except String Unit) (embed : String → Except String Vec) (t0 : Option ℕ)
       (wm : Bool) (locs : List FTree) (fs0 : FS),
      ((index_images lm embed t0 wm locs fs0).cancelledRet = false →
        (index_images lm embed t0 wm locs fs0).finished.length = 1) ∧
      ((index_images lm embed t0 wm locs fs0).cancelledRet = true →
        (index_images lm embed t0 wm locs fs0).finished = [])) ∧
    (∀ (lm : Except String Unit) (embed : String → Except String Vec) (wm : Bool)
       (locs : List FTree) (fs0 : FS),
      (index_images lm embed none wm locs fs0).cancelledRet = false) ∧
    (∀ (e : String) (embed : String → Except String Vec) (t0 : Option ℕ) (wm : Bool)
       (locs : List FTree) (fs0 : FS),
      (index_images (.error e) embed t0 wm locs fs0).finished =
        [(false, "❌ Indexing failed: " ++ e, 0)] ∧
      (index_images (.error e) embed t0 wm locs fs0).fs = fs0) := by
  refine ⟨?_, ?_, ?_⟩
  · intro lm embed t0 wm locs fs0
    constructor
    · intro hc
      rcases index_images_cases lm embed t0 wm locs fs0 _ rfl with ⟨h1, _, _⟩ | ⟨_, h2⟩
      · rw [hc] at h1
        cases h1
      · exact h2
    · intro hc
      rcases index_images_cases lm embed t0 wm locs fs0 _ rfl with ⟨_, _, h3⟩ | ⟨h1, _⟩
      · exact h3
      · rw [hc] at h1
        cases h1
  · exact fun lm embed wm locs fs0 => index_images_none_not_cancelled lm embed wm locs fs0
  · intro e embed t0 wm locs fs0
    exact ⟨rfl, rfl⟩

/-- C10 witness: a never-cancelled run emits exactly one terminal signal, obtained by
applying the theorem to a concrete run. -/
theorem C10_terminal_signals_witness :
    (index_images (.ok ()) (fun _ => .error "boom") none false [] ⟨none, none⟩).finished.length
      = 1 :=
  (C10_terminal_signals.1 (.ok ()) (fun _ => .error "boom") none false [] ⟨none, none⟩).1
    (C10_terminal_signals.2.1 (.ok ()) (fun _ => .error "boom") false [] ⟨none, none⟩)

/-! # C8 -/

/-- C8 (corrected): in the single-file app's scan, a directory whose basename
case-insensitively contains an exclusion token is pruned entirely — the walk's outcome
does not depend on the directory's files or subtree at all, a completed walk contributes
exactly the `allowedFiles` of the tree (valid files not at or beneath an excluded
directory), and an excluded directory contributes nothing; the modular engine's
collection loop, by contrast, applies no folder exclusion (see the counterexample). -/
theorem C8_exclusion_amended :
    (∀ (t0 : Option ℕ) (d nm : String) (files : List FileEnt) (subs : List FTree)
       (st : ScanSt), should_exclude_folder nm = true →
      walkTree t0 d (.node nm files subs) st = walkTree t0 d (.node nm [] []) st) ∧
    (∀ (tr : FTree) (d : String) (st : ScanSt),
      ∃ st', walkTree none d tr st = .ok st' ∧
        st'.images = st.images ++ allowedFiles d tr) ∧
    (∀ (d nm : String) (files : List FileEnt) (subs : List FTree),
      should_exclude_folder nm = true → allowedFiles d (.node nm files subs) = []) := by
  refine ⟨?_, ?_, ?_⟩
  · intro t0 d nm files subs st hex
    simp only [walkTree, hex, if_true]
  · intro tr d st
    obtain ⟨st', h1, h2, _⟩ := walkTree_none tr d st
    exact ⟨st', h1, h2⟩
  · intro d nm files subs hex
    simp [allowedFiles, hex]

/-- C8 witness: the walk of a concrete excluded directory ("temp") with a valid image
file inside equals the walk of the same directory emptied out. -/
theorem C8_exclusion_witness :
    walkTree none "root/temp" (FTree.node "temp" [⟨"a.jpg", some 2048⟩] [])
        (initScanSt false) =
      walkTree none "root/temp" (FTree.node "temp" [] []) (initScanSt false) :=
  C8_exclusion_amended.1 none "root/temp" "temp" [⟨"a.jpg", some 2048⟩] [] (initScanSt false)
    (by decide)

/-- C8 counterexample: the modular engine's collection loop
(`src/engine/indexer.py` lines 35–38) has no folder-exclusion check: scanning a root
containing the excluded directory `temp` puts the file beneath it into the candidate
set, so the claim's "no file beneath it, at any depth, appears in the candidate set
produced by the scan" fails on that code path. -/
theorem C8_exclusion_counterexample :
    should_exclude_folder "temp" = true ∧
    EngineIndexer.collect "root"
      (FTree.node "root" [] [FTree.node "temp" [⟨"a.jpg", some 2048⟩] []]) =
      ["root/temp/a.jpg"] ∧
    "root/temp/a.jpg" ∈ EngineIndexer.collect "root"
      (FTree.node "root" [] [FTree.node "temp" [⟨"a.jpg", some 2048⟩] []]) := by
  refine ⟨by decide, by decide, by decide⟩

/-! # C9 helper lemmas -/

theorem embed_pct_bounds {i n : ℕ} (h : i < n) :
    40 ≤ 45 + i * 40 / n ∧ 45 + i * 40 / n ≤ 90 := by
  have hn : 0 < n := Nat.lt_of_le_of_lt (Nat.zero_le i) h
  have h40 : i * 40 / n < 40 := (Nat.div_lt_iff_lt_mul hn).2 (by omega)
  generalize hq : i * 40 / n = q at h40 ⊢
  omega

theorem emit_every_ten {i n : ℕ} (h : i < n) :
    ∃ j, i ≤ j ∧ j < n ∧ j < i + 10 ∧ (j % 10 = 0 ∨ j = n - 1) := by
  by_cases hm : ((i + 9) / 10) * 10 < n
  · exact ⟨((i + 9) / 10) * 10, by omega, hm, by omega, Or.inl (by omega)⟩
  · exact ⟨n - 1, by omega, by omega, by omega, Or.inr rfl⟩

theorem initProg_bound (wm : Bool) : ∀ e ∈ initProg wm, e.2 ≤ 40 := by
  cases wm <;> decide

theorem scanProg_bound {wm : Bool} {new stprog : List (String × ℕ)}
    (hp : stprog = initProg wm ++ new) (hb : ∀ e ∈ new, 16 ≤ e.2 ∧ e.2 ≤ 40) :
    ∀ e ∈ stprog, e.2 ≤ 40 := by
  intro e he
  rw [hp] at he
  rcases List.mem_append.1 he with h | h
  · exact initProg_bound wm e h
  · exact (hb e h).2

theorem embedPcts_bound {l : List String} {x : ℕ}
    (hx : x ∈ l.enum.filterMap (fun p => if p.1 % 10 == 0 || p.1 == l.length - 1
      then some (45 + p.1 * 40 / l.length) else none)) : 40 ≤ x ∧ x ≤ 90 := by
  rcases List.mem_filterMap.1 hx with ⟨p, hp, hfp⟩
  by_cases hc : (p.1 % 10 == 0 || p.1 == l.length - 1) = true
  · rw [if_pos hc] at hfp
    have hlt : p.1 < l.length :=
      (List.getElem?_eq_some.1 (List.mem_enum_iff_getElem?.1 hp)).1
    rw [← Option.some_inj.1 hfp]
    exact embed_pct_bounds hlt
  · rw [if_neg hc] at hfp
    cases hfp

theorem estProg_bound {est : EmbSt} {stprog : List (String × ℕ)} {l : List String}
    (h6 : est.prog.map Prod.snd = stprog.map Prod.snd ++ [45] ++
      l.enum.filterMap (fun p => if p.1 % 10 == 0 || p.1 == l.length - 1
        then some (45 + p.1 * 40 / l.length) else none))
    (hst : ∀ e ∈ stprog, e.2 ≤ 40) :
    ∀ e ∈ est.prog, e.2 ≤ 90 := by
  intro e he
  have hx : e.2 ∈ est.prog.map Prod.snd := List.mem_map_of_mem _ he
  rw [h6] at hx
  rcases List.mem_append.1 hx with hx | hx
  · rcases List.mem_append.1 hx with hx | hx
    · rcases List.mem_map.1 hx with ⟨a, ha, hae⟩
      rw [← hae]
      exact le_trans (hst a ha) (by norm_num)
    · rw [List.mem_singleton.1 hx]
      norm_num
  · exact (embedPcts_bound hx).2

/-! # C9 -/

/-- C9 (confirmed): in a run with a loaded model and no cancellation, every progress
event carries a percent within 0–100 (the `progress_signal` payload is a message plus the
percent; the stage is carried by the message); when the run reaches the success path its
percent stream is exactly the 5/optional-10/15 preamble, the scan events (each within
16–40), the 45% embedding start, one event per embedding index `i` with `i % 10 = 0` or
`i` last at percent `45 + i·40/n` (proportional to the images processed so far), and the
90/95 build-and-save events; every per-image percent lies within 40–90; and every window
of ten consecutive embedding indices contains an emitting index. -/
theorem C9_progress :
    ∀ (embed : String → Except String Vec) (wm : Bool) (locs : List FTree) (fs0 : FS),
      (∀ e ∈ (index_images (.ok ()) embed none wm locs fs0).prog, e.2 ≤ 100) ∧
      (embedOkPaths embed (dedupKeepFirst (allowedFilesLocs locs)) ≠ [] →
        ∃ scanPcts : List ℕ,
          (∀ p ∈ scanPcts, 16 ≤ p ∧ p ≤ 40) ∧
          (index_images (.ok ()) embed none wm locs fs0).prog.map Prod.snd =
            [5] ++ (if wm then [10] else []) ++ [15] ++ scanPcts ++ [45] ++
            (dedupKeepFirst (allowedFilesLocs locs)).enum.filterMap
              (fun p => if p.1 % 10 == 0 ||
                  p.1 == (dedupKeepFirst (allowedFilesLocs locs)).length - 1
                then some (45 + p.1 * 40 / (dedupKeepFirst (allowedFilesLocs locs)).length)
                else none) ++ [90, 95]) ∧
      (∀ i n : ℕ, i < n → 40 ≤ 45 + i * 40 / n ∧ 45 + i * 40 / n ≤ 90) ∧
      (∀ i n : ℕ, i < n → ∃ j, i ≤ j ∧ j < n ∧ j < i + 10 ∧ (j % 10 = 0 ∨ j = n - 1)) := by
  intro embed wm locs fs0
  obtain ⟨st, hscan, himg, ⟨new, hpr, hbnd⟩, hrun⟩ := index_images_none_eq embed wm locs fs0
  have hstb : ∀ e ∈ st.prog, e.2 ≤ 40 := scanProg_bound hpr hbnd
  refine ⟨?_, ?_, fun i n h => embed_pct_bounds h, fun i n h => emit_every_ten h⟩
  · rw [hrun]
    by_cases hemp : st.images.isEmpty
    · have hrec : afterScan embed none st fs0 =
          { finished := [(false, "No images found to index!", 0)], prog := st.prog, failed_images := [], fs := fs0, cancelledRet := false } := by
        unfold afterScan
        rw [if_pos hemp]
      rw [hrec]
      intro e he
      exact le_trans (hstb e he) (by norm_num)
    · obtain ⟨est, he1, he2, he3, he4, he5, he6⟩ := afterScan_none_eq embed st fs0 hemp
      have hestb : ∀ e ∈ est.prog, e.2 ≤ 90 := estProg_bound he6 hstb
      rw [he1]
      unfold afterEmbed
      by_cases hfin : est.embeddings_list.isEmpty
      · rw [if_pos hfin]
        intro e he
        exact le_trans (hestb e he) (by norm_num)
      · rw [if_neg hfin]
        intro e he
        rcases List.mem_append.1 he with h | h
        · exact le_trans (hestb e h) (by norm_num)
        · rcases List.mem_cons.1 h with rfl | h
          · norm_num
          · rw [List.mem_singleton.1 h]
            norm_num
  · intro hok
    have hcand : ¬ st.images.isEmpty := by
      intro h
      apply hok
      rw [← himg, List.isEmpty_iff.1 h]
      rfl
    obtain ⟨est, he1, he2, he3, he4, he5, he6⟩ := afterScan_none_eq embed st fs0 hcand
    rw [himg] at he2 he6
    have hfin : ¬ est.embeddings_list.isEmpty := by
      intro h
      apply hok
      have hl := embedOk_lengths embed (dedupKeepFirst (allowedFilesLocs locs))
      rw [List.isEmpty_iff.1 h] at he2
      rw [← he2] at hl
      exact List.length_eq_zero.1 hl.symm
    refine ⟨new.map Prod.snd, ?_, ?_⟩
    · intro p hp
      rcases List.mem_map.1 hp with ⟨a, ha, hae⟩
      rw [← hae]
      exact hbnd a ha
    · rw [hrun, he1]
      unfold afterEmbed
      rw [if_neg hfin]
      have hinit : (initProg wm).map Prod.snd = [5] ++ (if wm then [(10 : ℕ)] else []) ++ [15] := by
        cases wm <;> simp [initProg]
      have hstmap : st.prog.map Prod.snd =
          ([5] ++ (if wm then [(10 : ℕ)] else []) ++ [15]) ++ new.map Prod.snd := by
        rw [hpr, List.map_append, hinit]
      dsimp only
      rw [List.map_append, he6, hstmap]
      simp [List.append_assoc]

/-- C9 witness: a concrete run's first progress event (the 5% model-load event) is within
0–100, obtained by applying the theorem at that event. -/
theorem C9_progress_witness :
    (("🤖 Loading AI model...", 5) : String × ℕ).2 ≤ 100 :=
  (C9_progress (fun _ => .ok [1]) false [] ⟨none, none⟩).1 ("🤖 Loading AI model...", 5)
    (by decide)
